import Mathlib

/-!
Shallow embedding of the `reflect/incomplete` package: run-time construction
of (possibly recursive) types in two phases — declare placeholders and
composite shapes first, then resolve sizes and finalize them in a batch.

The Go package mutates a heap graph of `*itype` nodes and three package-level
caches (`ofMap`, `lookupCache`, `structLookupCache`).  Here the heap is an
explicit `World` value: nodes live in an arena (`World.nodes`) and are
referenced by index, the caches are association lists inside the same
`World`.  Pointer identity of `*itype` becomes index identity.  Functions
that can `panic` return `Except Panic _`.  Recursions that walk the mutable
graph (size resolution, rendering, completion) take an explicit fuel
argument standing for the call depth, which the Go original leaves implicit.

Machine integers: `uintptr` is modelled as `Nat` with explicit `% 2^64`
wraparound where the Go code can overflow, `uint32` hash values with
`% 2^32`.  The platform is the 64-bit one the package hardcodes via
`ptrSize = 4 << (^uintptr(0) >> 63) = 8`.
-/

namespace ReflectIncomplete

/-- Word size constants: 64-bit platform, `ptrSize = 8`. -/
def W64 : Nat := 2 ^ 64

def ptrSize : Nat := 8

/-- Wrap a `Nat` into `uintptr` range, the 64-bit two-complement carrier. -/
def wrap (x : Nat) : Nat := x % W64

/-- Bitwise complement on 64 bits: for `m < 2^64` this is `NOT m`. -/
def notW (m : Nat) : Nat := (W64 - 1) - m % W64

/-- From size.go / part_010: `doAlign(x, n) = (x + n - 1) &^ (n - 1)`,
rounding `x` up to a multiple of `n` (`n` must be a power of two).
`uintptr` arithmetic wraps, hence the explicit `% 2^64` on both operands.
`a &^ b` is Go AND-NOT, i.e. `a &&& notW b`. -/
def doAlign (x n : Nat) : Nat :=
  wrap (x + n + (W64 - 1)) &&& notW (wrap (n + (W64 - 1)))

/-- From extern.go: `fnv1` is link-named from package reflect (not part of
this repository).  Modelled from the spec: the FNV-1 mixing function on a
running 32-bit hash, `x = x*16777619 ^ b` for each byte. -/
def fnv1 (x : Nat) (list : List Nat) : Nat :=
  list.foldl (fun h b => (h * 16777619) % 2 ^ 32 ^^^ b % 256) (x % 2 ^ 32)

/-- From extern.go: `fnv4(x, y)` mixes the four bytes of `y` into `x`. -/
def fnv4 (x y : Nat) : Nat :=
  fnv1 x [y / 2 ^ 24 % 256, y / 2 ^ 16 % 256, y / 2 ^ 8 % 256, y % 256]

/-- From extern.go: `isValidFieldName` is link-named from package reflect
(not part of this repository).  Modelled from the spec: a valid identifier
is a non-empty letter-or-underscore followed by letters, digits or
underscores. -/
def isIdentStart (c : Char) : Bool :=
  c.isAlpha || c = '_'

def isIdentPart (c : Char) : Bool :=
  isIdentStart c || c.isDigit

def isValidFieldName (fieldName : String) : Bool :=
  match fieldName.toList with
  | [] => false
  | c :: cs => isIdentStart c && cs.all isIdentPart

/-- From type.go: `tribool` is a three-valued boolean. -/
inductive tribool where
  | tunknown
  | tfalse
  | ttrue
deriving DecidableEq, Repr

export tribool (tunknown tfalse ttrue)

/-- From type.go: `makeTribool`. -/
def makeTribool (flag : Bool) : tribool :=
  if flag then ttrue else tfalse

/-- From type.go: `andTribool` — conjunction with unknown absorbing. -/
def andTribool (a b : tribool) : tribool :=
  if a = tunknown || b = tunknown then tunknown
  else if a = tfalse || b = tfalse then tfalse
  else ttrue

/-- Kind tags, the values of `reflect.Kind` used by the package. -/
def kInvalid : Nat := 0
def kBool : Nat := 1
def kInt : Nat := 2
def kArray : Nat := 17
def kChan : Nat := 18
def kFunc : Nat := 19
def kInterface : Nat := 20
def kMap : Nat := 21
def kPtr : Nat := 22
def kSlice : Nat := 23
def kString : Nat := 24
def kStruct : Nat := 25

/-- Model of the external `reflect.Type` collaborator (the spec's
"realize already-complete shape" operation; package reflect itself is out
of scope and not under src/).  Modelled from the spec: a complete type is
a base type or a composite built from complete types.  Lists of types and
of struct fields are encoded as `rnil`/`rcons` chains of the same
inductive so that equality (the identity `reflect.Type` keys of `ofMap`)
stays decidable.  Method sets of external types are not modelled: every
modelled external type has an empty method set, on which the source's
`methodsFromReflect` returns nil. -/
inductive RType where
  | base (name pkgPath str : String) (size align fieldAlign knd : Nat)
      (cmp equal : Bool)
  | ptrR (elem : RType)
  | chanR (dir : Nat) (elem : RType)
  | sliceR (elem : RType)
  | mapR (key elem : RType)
  | arrayR (count : Nat) (elem : RType)
  | funcR (ins outs : RType) (variadic : Bool)
  | structR (fields : RType)
  | rnil
  | rcons (head tail : RType)
  | rfield (fname : String) (ty : RType)
deriving DecidableEq, Repr

namespace RType

/-- `reflect.Type.Name()`: only base (named) types report a name. -/
def rtName : RType → String
  | base n _ _ _ _ _ _ _ _ => n
  | _ => ""

/-- `reflect.Type.PkgPath()`. -/
def rtPkgPath : RType → String
  | base _ p _ _ _ _ _ _ _ => p
  | _ => ""

/-- `reflect.Type.String()`. -/
def rtString : RType → String
  | base _ _ s _ _ _ _ _ _ => s
  | ptrR e => "*" ++ rtString e
  | chanR d e =>
    (if d = 1 then "<-chan " else if d = 2 then "chan<- " else "chan ")
      ++ rtString e
  | sliceR e => "[]" ++ rtString e
  | mapR k e => "map[" ++ rtString k ++ "]" ++ rtString e
  | arrayR c e => "[" ++ toString c ++ "]" ++ rtString e
  | funcR _ _ _ => "func(...)"
  | structR _ => "struct \x7b...\x7d"
  | rnil => ""
  | rcons _ _ => ""
  | rfield _ _ => ""

/-- `reflect.Type.Kind()` as the package's kind tag. -/
def rtKind : RType → Nat
  | base _ _ _ _ _ _ k _ _ => k
  | ptrR _ => kPtr
  | chanR _ _ => kChan
  | sliceR _ => kSlice
  | mapR _ _ => kMap
  | arrayR _ _ => kArray
  | funcR _ _ _ => kFunc
  | structR _ => kStruct
  | rnil => kInvalid
  | rcons _ _ => kInvalid
  | rfield _ _ => kInvalid

/-- `reflect.Type.Comparable()`: Go comparability of complete types. -/
def rtComparable : RType → Bool
  | base _ _ _ _ _ _ _ c _ => c
  | ptrR _ => true
  | chanR _ _ => true
  | sliceR _ => false
  | mapR _ _ => false
  | arrayR _ e => rtComparable e
  | funcR _ _ _ => false
  | structR fs => rtComparable fs
  | rnil => true
  | rcons h t => rtComparable h && rtComparable t
  | rfield _ ty => rtComparable ty

/-- Whether the realized type has an equality function (`rtype.equal`
non-nil); coincides with comparability for external types. -/
def rtEqual (t : RType) : Bool := rtComparable t

/-- `reflect.Type.Align()` of a complete type. -/
def rtAlign : RType → Nat
  | base _ _ _ _ a _ _ _ _ => a
  | ptrR _ => ptrSize
  | chanR _ _ => ptrSize
  | sliceR _ => ptrSize
  | mapR _ _ => ptrSize
  | arrayR _ e => rtAlign e
  | funcR _ _ _ => ptrSize
  | structR fs => rtAlign fs
  | rnil => 1
  | rcons h t => max (rtAlign h) (rtAlign t)
  | rfield _ ty => rtAlign ty

mutual

/-- `reflect.Type.Size()` of a complete type (external layout model:
the same packing rule the resolver uses). -/
def rtSize : RType → Nat
  | base _ _ _ s _ _ _ _ _ => s
  | ptrR _ => ptrSize
  | chanR _ _ => ptrSize
  | sliceR _ => 3 * ptrSize
  | mapR _ _ => ptrSize
  | arrayR c e => wrap (c * rtSize e)
  | funcR _ _ _ => ptrSize
  | structR fs => doAlign (rtSizeFields fs 0) (rtAlign fs)
  | rnil => 0
  | rcons _ _ => 0
  | rfield _ ty => rtSize ty
termination_by structural t => t

/-- Helper for `rtSize` on struct field chains: packed running offset. -/
def rtSizeFields : RType → Nat → Nat
  | rcons (rfield _ ty) rest, off =>
    rtSizeFields rest (wrap (doAlign off (rtAlign ty) + rtSize ty))
  | _, off => off
termination_by structural t _ => t

end

/-- `reflect.Type.FieldAlign()`. -/
def rtFieldAlign (t : RType) : Nat := rtAlign t

end RType

export RType (rtName rtPkgPath rtString rtKind rtComparable rtEqual
  rtAlign rtSize rtFieldAlign)

/-- From the rtype declarations (part_015): the fragment of the low-level
`rtype` header that this embedding tracks — size, alignment, kind, hash,
interned string, and whether the `equal` function pointer is non-nil. -/
structure Rtype where
  size : Nat := 0
  align : Nat := 0
  fieldAlign : Nat := 0
  knd : Nat := 0
  hash : Nat := 0
  str : String := ""
  equal : Bool := false
deriving DecidableEq, Repr

/-- From struct.go: `StructField` (name, pkgPath, type, tag, anonymous).
The `Type` interface value is a node index; `Option` models a nil
interface.  `Type` is a Lean keyword, so the field is spelled `Typ`. -/
structure SField where
  Name : String := ""
  PkgPath : String := ""
  Typ : Option Nat := none
  Tag : String := ""
  Anonymous : Bool := false
deriving DecidableEq, Repr

/-- From itype.go: the `iAnyType` payload of a node — either another
`*itype` (after `Define`), or one of the shape descriptors
`iArrayType`, `iChanType`, `iFuncType`, `iInterfaceType`, `iMapType`,
`iPtrType`, `iSliceType`, `iStructType`; `none` models a nil `info`
(a named placeholder not yet defined). -/
inductive Info where
  | none
  | ref (u : Nat)
  | arrayI (elem : Nat) (count : Nat)
  | chanI (dir : Nat) (elem : Nat)
  | funcI (ins outs : List Nat) (variadic : Bool)
  | interfaceI (embedded : List Nat)
  | mapI (key elem : Nat)
  | ptrI (elem : Nat)
  | sliceI (elem : Nat)
  | structI (fields : List SField)
deriving DecidableEq, Repr

/-- From itype.go: `qname`, a qualified name. -/
structure qname where
  name : String := ""
  pkgPath : String := ""
  str : String := ""
deriving DecidableEq, Repr

/-- From itype.go: `itype`, the graph node.  `named` is the optional
name binding, `iflag` bits are split into the three booleans
`defined`/`sizeKnown`/`hashStrKnown`, `incomplete` is the partially
built rtype header, `complete` the realized external type, `info` the
payload.  `finish` records that complete.go installed a deferred
finish closure on the node. -/
structure INode where
  named : Option qname := Option.none
  comparable : tribool := tunknown
  defined : Bool := false
  sizeKnown : Bool := false
  hashStrKnown : Bool := false
  incomplete : Option Rtype := Option.none
  complete : Option RType := Option.none
  info : Info := Info.none
  finish : Bool := false
deriving DecidableEq, Repr

instance : Inhabited INode := ⟨{}⟩

/-- From itype.go: `cacheKey` for the `lookupCache` — kind, one or two
child node identities, and an extra scalar. -/
structure cacheKey where
  knd : Nat
  t1 : Option Nat
  t2 : Option Nat
  extra : Nat
deriving DecidableEq, Repr

/-- From struct.go: `structCacheKey` — the first `maxStructFields`
fields (the Go `[128]StructField` array, zero-padded) plus the count. -/
structure structCacheKey where
  fields : List SField
  fieldCount : Nat
deriving DecidableEq, Repr

/-- The package-level mutable state: the node arena standing for the Go
heap, plus the three caches `ofMap`, `lookupCache` and
`structLookupCache`. -/
structure World where
  nodes : List INode := []
  ofMap : List (RType × Nat) := []
  lookupCache : List (cacheKey × Nat) := []
  structLookupCache : List (structCacheKey × Nat) := []
deriving DecidableEq, Repr

namespace World

/-- Dereference a node index (a nil/dangling pointer yields the default
zero node, which no well-formed execution dereferences). -/
def get (w : World) (i : Nat) : INode := w.nodes.getD i default

/-- In-place node update, the arena view of mutating through `*itype`. -/
def set (w : World) (i : Nat) (n : INode) : World :=
  { w with nodes := w.nodes.set i n }

/-- Allocate a fresh node; its index plays the role of the `*itype`
pointer identity. -/
def alloc (w : World) (n : INode) : World × Nat :=
  ({ w with nodes := w.nodes ++ [n] }, w.nodes.length)

def lookupOf (w : World) (rt : RType) : Option Nat :=
  (w.ofMap.find? (fun p => p.1 = rt)).map (·.2)

def insertOf (w : World) (rt : RType) (i : Nat) : World :=
  { w with ofMap := (rt, i) :: w.ofMap }

def lookupCK (w : World) (k : cacheKey) : Option Nat :=
  (w.lookupCache.find? (fun p => p.1 = k)).map (·.2)

def insertCK (w : World) (k : cacheKey) (i : Nat) : World :=
  { w with lookupCache := (k, i) :: w.lookupCache }

def lookupSK (w : World) (k : structCacheKey) : Option Nat :=
  (w.structLookupCache.find? (fun p => p.1 = k)).map (·.2)

def insertSK (w : World) (k : structCacheKey) (i : Nat) : World :=
  { w with structLookupCache := (k, i) :: w.structLookupCache }

end World

/-- From itype.go: `(t *itype).kind()` — the kind of the complete type
if realized, else of the incomplete header, else `kInvalid`. -/
def INode.kind (n : INode) : Nat :=
  match n.complete with
  | some c => rtKind c
  | Option.none =>
    match n.incomplete with
    | some r => r.knd
    | Option.none => kInvalid

/-- From itype.go: `(t *itype).size()` (0 when not known yet). -/
def INode.size (n : INode) : Nat :=
  if !n.sizeKnown then 0
  else
    match n.complete with
    | some c => rtSize c
    | Option.none =>
      match n.incomplete with
      | some r => r.size
      | Option.none => 0

/-- From itype.go: `(t *itype).align()` (0 when not known yet). -/
def INode.align (n : INode) : Nat :=
  if !n.sizeKnown then 0
  else
    match n.complete with
    | some c => rtAlign c
    | Option.none =>
      match n.incomplete with
      | some r => r.align
      | Option.none => 0

/-- From itype.go: `(t *itype).fieldAlign()` (0 when not known yet). -/
def INode.fieldAlign (n : INode) : Nat :=
  if !n.sizeKnown then 0
  else
    match n.complete with
    | some c => rtFieldAlign c
    | Option.none =>
      match n.incomplete with
      | some r => r.fieldAlign
      | Option.none => 0

/-- The package's `panic` messages, as an error type for `Except`. -/
inductive Panic where
  | emptyName
  | invalidName
  | alreadyDefined
  | notNamed
  | alreadyComplete
  | invalidTypeLoop
  | typeLoopSize
  | arrayOverflow
  | negativeCount
  | mapKeyNotComparable
  | mapKeyNotComparableComplete
  | fieldNoName (i : Nat)
  | fieldInvalidName (i : Nat)
  | fieldNoType (i : Nat)
  | fieldPkgPathMismatch
  | anonymousWithPkgPath
  | unexportedMissingPkgPath
  | sliceBounds
  | variadicNotSlice
  | methodNotNil
  | internalError
  | unimplemented
  | missingSize (idx : Nat)
  | outOfFuel
deriving DecidableEq, Repr

/-- From type.go: `filename` — the trailing portion of a path after the
last slash character. -/
def filename (path : String) : String :=
  (path.splitOn "/").getLastD path

/-- From type.go: `makeQname`.  The Go body re-slices `str` to share
storage; observationally `name` and `pkgPath` are unchanged. -/
def makeQname (name pkgPath : String) : qname :=
  if pkgPath = "" then { name, pkgPath, str := name }
  else { name, pkgPath, str := filename (pkgPath ++ "." ++ name) }

/-- From type.go: `of` — wrap a complete external type, read-through the
`ofMap` cache.  The modelled external types have empty method sets, so
`methodsFromReflect` contributes nothing (the source returns nil when
`NumMethod() == 0`). -/
def of (w : World) (rt : RType) : World × Nat :=
  match w.lookupOf rt with
  | some t => (w, t)
  | Option.none =>
    let named : Option qname :=
      if rtName rt ≠ "" then
        some { name := rtName rt, pkgPath := rtPkgPath rt, str := rtString rt }
      else Option.none
    let (w1, i) := w.alloc
      { named
        comparable := makeTribool (rtComparable rt)
        sizeKnown := true
        complete := some rt
        info := Info.none }
    (w1.insertOf rt i, i)

/-- From type.go: `Of` (the mutex only matters under concurrency). -/
def Of (w : World) (rt : RType) : World × Nat := of w rt

/-- From type.go: `NamedOf` — create a named placeholder. -/
def NamedOf (w : World) (name pkgPath : String) : Except Panic (World × Nat) :=
  if name = "" then .error .emptyName
  else if !isValidFieldName name then .error .invalidName
  else .ok (w.alloc { named := some (makeQname name pkgPath) })

/-- From itype.go: `canonicalize(ckey, t)` — `lookupCache.LoadOrStore`. -/
def canonicalize (w : World) (ckey : cacheKey) (t : Nat) : World × Nat :=
  match w.lookupCK ckey with
  | some r => (w, r)
  | Option.none => (w.insertCK ckey t, t)

/-- Prototype rtype header of `*unsafe.Pointer`, as copied by PtrTo. -/
def ptrProto : Rtype :=
  { size := ptrSize, align := ptrSize, fieldAlign := ptrSize, knd := kPtr
    hash := 0, str := "", equal := true }

/-- From ptr.go: `PtrTo` — complete element short-circuits to the
external realizer; otherwise look in `lookupCache`, else build a node
and canonicalize it. -/
def PtrTo (w : World) (elem : Nat) : World × Nat :=
  let ielem := w.get elem
  match ielem.complete with
  | some rt => Of w (RType.ptrR rt)
  | Option.none =>
    let ckey : cacheKey := ⟨kPtr, some elem, Option.none, 0⟩
    match w.lookupCK ckey with
    | some r => (w, r)
    | Option.none =>
      let (w1, t) := w.alloc
        { comparable := ttrue
          sizeKnown := true
          incomplete := some ptrProto
          info := Info.ptrI elem }
      canonicalize w1 ckey t

/-- Prototype rtype header of `[]unsafe.Pointer`, as copied by SliceOf. -/
def sliceProto : Rtype :=
  { size := 3 * ptrSize, align := ptrSize, fieldAlign := ptrSize
    knd := kSlice, hash := 0, str := "", equal := false }

/-- From slice.go: `SliceOf`. -/
def SliceOf (w : World) (elem : Nat) : World × Nat :=
  let ielem := w.get elem
  match ielem.complete with
  | some rt => Of w (RType.sliceR rt)
  | Option.none =>
    let ckey : cacheKey := ⟨kSlice, some elem, Option.none, 0⟩
    match w.lookupCK ckey with
    | some r => (w, r)
    | Option.none =>
      let (w1, t) := w.alloc
        { comparable := tfalse
          sizeKnown := true
          incomplete := some sliceProto
          info := Info.sliceI elem }
      canonicalize w1 ckey t

/-- Prototype rtype header of `chan unsafe.Pointer` (`rtypeChan`). -/
def chanProto : Rtype :=
  { size := ptrSize, align := ptrSize, fieldAlign := ptrSize, knd := kChan
    hash := 0, str := "", equal := true }

/-- From chan.go: `ChanOf` — note: this revision does not consult or
populate `lookupCache`; it allocates a fresh node on every call. -/
def ChanOf (w : World) (dir : Nat) (elem : Nat) : World × Nat :=
  let ielem := w.get elem
  match ielem.complete with
  | some rt => Of w (RType.chanR dir rt)
  | Option.none =>
    w.alloc
      { comparable := ttrue
        sizeKnown := true
        incomplete := some chanProto
        info := Info.chanI dir elem }

/-- Prototype rtype header of `map[unsafe.Pointer]unsafe.Pointer`. -/
def mapProto : Rtype :=
  { size := ptrSize, align := ptrSize, fieldAlign := ptrSize, knd := kMap
    hash := 0, str := "", equal := false }

/-- From part_009: `MapOf` — panics when the key is already known to be
non-comparable; no `lookupCache` use in this revision. -/
def MapOf (w : World) (key elem : Nat) : Except Panic (World × Nat) :=
  let ikey := w.get key
  let ielem := w.get elem
  match ikey.complete, ielem.complete with
  | some krt, some ert => .ok (Of w (RType.mapR krt ert))
  | _, _ =>
    if ikey.comparable = tfalse then .error .mapKeyNotComparable
    else .ok (w.alloc
      { comparable := tfalse
        sizeKnown := true
        incomplete := some mapProto
        info := Info.mapI key elem })

/-- Prototype rtype header of `[1]unsafe.Pointer`, as copied by ArrayOf. -/
def arrayProto : Rtype :=
  { size := ptrSize, align := ptrSize, fieldAlign := ptrSize, knd := kArray
    hash := 0, str := "", equal := true }

/-- From part_014: `ArrayOf` — negative count panics; complete element
short-circuits; otherwise cached and canonicalized via `lookupCache`.
The node inherits the element's comparability and size-known flag. -/
def ArrayOf (w : World) (count : Int) (elem : Nat) : Except Panic (World × Nat) :=
  if count < 0 then .error .negativeCount
  else
    let c := count.toNat
    let ielem := w.get elem
    match ielem.complete with
    | some rt => .ok (Of w (RType.arrayR c rt))
    | Option.none =>
      let ckey : cacheKey := ⟨kArray, some elem, Option.none, c⟩
      match w.lookupCK ckey with
      | some r => .ok (w, r)
      | Option.none =>
        let (w1, t) := w.alloc
          { comparable := ielem.comparable
            sizeKnown := ielem.sizeKnown
            incomplete := some arrayProto
            info := Info.arrayI elem c }
        .ok (canonicalize w1 ckey t)

/-- Build the `rnil`/`rcons` chain for a list of external types. -/
def rlistOf : List RType → RType
  | [] => RType.rnil
  | rt :: rest => RType.rcons rt (rlistOf rest)

/-- From func.go: `allTypesAreComplete`. -/
def allTypesAreComplete (w : World) (ts : List Nat) : Bool :=
  ts.all (fun t => (w.get t).complete.isSome)

/-- From func.go: `reflectFuncOf` — realize a function type whose
parameter and result types are all complete. -/
def reflectFuncOf (w : World) (ins outs : List Nat) (variadic : Bool) : RType :=
  RType.funcR
    (rlistOf (ins.map fun t => ((w.get t).complete.getD RType.rnil)))
    (rlistOf (outs.map fun t => ((w.get t).complete.getD RType.rnil)))
    variadic

/-- Prototype rtype header of `func()` (`rtypeFunc`). -/
def funcProto : Rtype :=
  { size := ptrSize, align := ptrSize, fieldAlign := ptrSize, knd := kFunc
    hash := 0, str := "", equal := false }

/-- From func.go: `FuncOf` — checks the variadic contract, realizes the
all-complete case externally, else allocates a fresh node (no cache in
this revision).  The Go nil-interface disjunct of the variadic check is
unrepresentable here (indices are never nil). -/
def FuncOf (w : World) (ins outs : List Nat) (variadic : Bool) :
    Except Panic (World × Nat) :=
  let nin := ins.length
  if variadic && (nin = 0 ||
      ((ins.getLastD 0 |> w.get).kind ≠ kInvalid &&
       (ins.getLastD 0 |> w.get).kind ≠ kSlice)) then
    .error .variadicNotSlice
  else if allTypesAreComplete w ins && allTypesAreComplete w outs then
    .ok (Of w (reflectFuncOf w ins outs variadic))
  else
    .ok (w.alloc
      { comparable := tfalse
        sizeKnown := true
        incomplete := some funcProto
        info := Info.funcI ins outs variadic })

/-- Prototype rtype header built by `InterfaceOf`: the source copies
only size, align, fieldAlign and kind of `rtypeInterface` into a bare
rtype, so the `equal` pointer is nil. -/
def interfaceProto : Rtype :=
  { size := 2 * ptrSize, align := ptrSize, fieldAlign := ptrSize
    knd := kInterface, hash := 0, str := "", equal := false }

/-- From interface.go: `InterfaceOf` — always a fresh node, marked
comparable and of fixed size.  Declared methods are not tracked by this
embedding (no claim concerns them). -/
def InterfaceOf (w : World) (embedded : List Nat) : World × Nat :=
  w.alloc
    { comparable := ttrue
      sizeKnown := true
      incomplete := some interfaceProto
      info := Info.interfaceI embedded }

def maxStructFields : Nat := 128

/-- Go `field.Name[0]` test in `StructField.toRuntime`: ASCII lowercase
or underscore first character. -/
def firstCharLower (s : String) : Bool :=
  match s.toList with
  | [] => false
  | c :: _ => ('a' ≤ c && c ≤ 'z') || c = '_'

/-- From struct.go: the `StructOf` validation loop over the fields, up to
and including the first field with an incomplete type (`break`).
Returns the accumulated comparability, package path, and whether every
field was complete. -/
def structOfLoop (w : World) :
    List SField → Nat → tribool → String → Except Panic (tribool × String × Bool)
  | [], _, cmp, pkg => .ok (cmp, pkg, true)
  | f :: rest, i, cmp, pkg =>
    if f.Name = "" then .error (.fieldNoName i)
    else if !isValidFieldName f.Name then .error (.fieldInvalidName i)
    else
      match f.Typ with
      | Option.none => .error (.fieldNoType i)
      | some ty =>
        if (w.get ty).complete = Option.none then .ok (cmp, pkg, false)
        else
          let cmp := andTribool cmp (w.get ty).comparable
          if f.Anonymous && f.PkgPath ≠ "" then .error .anonymousWithPkgPath
          else if f.PkgPath = "" && firstCharLower f.Name then
            .error .unexportedMissingPkgPath
          else if f.PkgPath ≠ "" && pkg ≠ "" && pkg ≠ f.PkgPath then
            .error .fieldPkgPathMismatch
          else
            structOfLoop w rest (i + 1) cmp (if f.PkgPath ≠ "" then f.PkgPath else pkg)

/-- From struct.go: `reflectStructOf` — realize a struct whose fields are
all complete. -/
def reflectStructOf (w : World) (fields : List SField) : RType :=
  RType.structR (rlistOf (fields.map fun f =>
    RType.rfield f.Name (((f.Typ.getD 0) |> w.get).complete.getD RType.rnil)))

/-- Prototype rtype header of `struct«»`. -/
def structProto : Rtype :=
  { size := 0, align := 1, fieldAlign := 1, knd := kStruct
    hash := 0, str := "", equal := true }

/-- The Go `[128]StructField` array of `structCacheKey`, i.e. the first
`maxStructFields` fields zero-padded to length 128. -/
def structKeyFields (fields : List SField) : List SField :=
  fields.take maxStructFields ++
    List.replicate (maxStructFields - fields.length) ({ } : SField)

/-- From struct.go: `StructOf`.  After validation, an all-complete field
list is realized externally; otherwise the node is canonicalized through
`structLookupCache` under the truncated 128-field key.  On a cache miss
the construction slices `ckey.fields[0:len(fields)]`, which for more
than 128 fields is out of bounds for the `[128]StructField` array — a
run-time panic, modelled by `Panic.sliceBounds`. -/
def StructOf (w : World) (fields : List SField) : Except Panic (World × Nat) := do
  let (cmp, _pkg, complete) ← structOfLoop w fields 0 ttrue ""
  if complete then
    return Of w (reflectStructOf w fields)
  else
    let ckey : structCacheKey :=
      { fields := structKeyFields fields, fieldCount := fields.length }
    match w.lookupSK ckey with
    | some t => return (w, t)
    | Option.none =>
      if fields.length > maxStructFields then
        throw .sliceBounds
      else
        let (w1, t) := w.alloc
          { comparable := cmp
            sizeKnown := false
            incomplete := some structProto
            info := Info.structI ((structKeyFields fields).take fields.length) }
        match w1.lookupSK ckey with
        | some r => return (w1, r)
        | Option.none => return (w1.insertSK ckey t, t)

/-- From type.go: the `next` step of `descendType` — follow `info` when
it is another `*itype`, i.e. a `ref` payload. -/
def descendNext (w : World) (t : Nat) : Option Nat :=
  match (w.get t).info with
  | Info.ref u => some u
  | _ => Option.none

/-- One `Option`-lifted step (`next(nil) = nil`). -/
def descendNextO (w : World) (t : Option Nat) : Option Nat :=
  t.bind (descendNext w)

/-- From type.go lines 258-277: `descendType` — the tortoise-and-hare
walk over the chain of named-to-named `info` links starting at `t`.
The Go loop state is `(t1, t2, last)`; on normal exit it rebinds
`t.info` to the last node of the chain.  The cited revision compares
`t1 == t2` without the `t1 != nil` guard found in the later revision
(func.go line 254), so the comparison also fires when both pointers
have run off the end of a finite chain.  (The Go panic also nils out
`t.info` before unwinding; the `Except` model drops that mutation.) -/
def descendTypeLoop (w : World) :
    Nat → Option Nat → Option Nat → Nat → Except Panic Nat
  | 0, _, _, _ => .error .outOfFuel
  | fuel + 1, t1, t2, last =>
    match t1 with
    | Option.none => .ok last
    | some x =>
      let t1n := descendNext w x
      let t2n := descendNextO w (descendNextO w t2)
      if t1n = t2n then .error .invalidTypeLoop
      else descendTypeLoop w fuel t1n t2n x

def descendType (fuel : Nat) (w : World) (t : Nat) : Except Panic World := do
  let last ← descendTypeLoop w fuel (some t) (some t) t
  return w.set t { w.get t with info := Info.ref last }

/-- Accumulator of the struct case of `computeSize` (part_010 lines
48-79): running packed size, alignment, position after the last
zero-sized field, and the `ok` flag. -/
structure StructAcc where
  size : Nat := 0
  align : Nat := 0
  lastzero : Nat := 0
  ok : Bool := true
deriving DecidableEq, Repr

/-- One field of the struct packing loop: skip arithmetic once a field
of unknown size was seen (`ok = false`), otherwise pad the offset to the
field's alignment and append the field. -/
def structAccStep (acc : StructAcc) (sized : Bool) (fsize falign : Nat) :
    StructAcc :=
  if !sized then { acc with ok := false }
  else if acc.ok then
    let offset := doAlign acc.size falign
    let align := if falign > acc.align then falign else acc.align
    let size := wrap (offset + fsize)
    { size, align
      lastzero := if fsize = 0 then size else acc.lastzero
      ok := acc.ok }
  else acc

/-- Result bundle of one `computeSize` dispatch arm: `(align, fieldAlign,
size, ok)`. -/
structure SizeRes where
  align : Nat := 0
  fieldAlign : Nat := 0
  size : Nat := 0
  ok : Bool := false
deriving DecidableEq, Repr

/-- Write back a resolved size (the `if ok` epilogue of part_010
computeSize): create a bare rtype header when there is none, store the
triple, raise `iflagSize`. -/
def storeSize (w : World) (t : Nat) (r : SizeRes) : World :=
  if r.ok then
    let tn := w.get t
    let rt := tn.incomplete.getD { }
    w.set t
      { tn with
        incomplete := some { rt with size := r.size, align := r.align, fieldAlign := r.fieldAlign }
        sizeKnown := true }
  else w

mutual

/-- From part_010 lines 17-94: `computeSize(t, work)` — memoized size
resolution with a work-set for cycle detection.  The `work` list is the
in-progress set; `fuel` stands for the Go call stack (every recursive
step consumes one unit so that the recursion is structural; any fuel
at least `nodes + fields` traversed is enough).  The array arm is
the one also found in part_014 (`iArrayType.computeSize`), the struct
arm the one also found in struct.go lines 178-214
(`iStructType.computeSize`). -/
def computeSize : Nat → World → List Nat → Nat → Except Panic World
  | 0, _, _, _ => .error .outOfFuel
  | fuel + 1, w, work, t =>
    let tn := w.get t
    if tn.sizeKnown then .ok w
    else if t ∈ work then .error .typeLoopSize
    else
      let work := t :: work
      if tn.kind = kInvalid then
        match tn.info with
        | Info.ref u => do
          let w ← computeSize fuel w work u
          let un := w.get u
          if un.sizeKnown then
            return storeSize w t
              { align := un.align, fieldAlign := un.fieldAlign
                size := un.size, ok := true }
          else
            return w
        | _ => .ok w
      else if tn.kind = kArray then
        match tn.info with
        | Info.arrayI elem count => do
          let w ← computeSize fuel w work elem
          let en := w.get elem
          if en.sizeKnown then
            let esize := en.size
            if esize > 0 && count > (W64 - 1) / esize then
              throw .arrayOverflow
            else
              return storeSize w t
                { align := en.align, fieldAlign := en.fieldAlign
                  size := wrap (count * esize), ok := true }
          else
            return w
        | _ => .error .internalError
      else if tn.kind = kStruct then
        match tn.info with
        | Info.structI fields => do
          let (w, acc) ← computeStructFields fuel w work fields { }
          let size :=
            if acc.ok && acc.size > 0 && acc.lastzero = acc.size then
              wrap (acc.size + 1)
            else acc.size
          return storeSize w t
            { align := acc.align, fieldAlign := acc.align
              size := size, ok := acc.ok }
        | _ => .error .internalError
      else .error .internalError
termination_by structural fuel _ _ _ => fuel

/-- The field loop of the struct arm: resolve each field's type, then
fold `structAccStep` over the (sized, size, align) observations. -/
def computeStructFields :
    Nat → World → List Nat → List SField → StructAcc →
    Except Panic (World × StructAcc)
  | _, w, _, [], acc => .ok (w, acc)
  | 0, _, _, _ :: _, _ => .error .outOfFuel
  | fuel + 1, w, work, f :: rest, acc =>
    match f.Typ with
    | Option.none => .error .internalError
    | some ty => do
      let w ← computeSize fuel w work ty
      let n := w.get ty
      computeStructFields fuel w work rest
        (structAccStep acc n.sizeKnown n.size n.align)
termination_by structural fuel _ _ _ _ => fuel

end

/-- From type.go lines 172-186: `Define` — bind a named placeholder to an
underlying type: reject double definition, unnamed receivers and already
complete receivers, then link `info`, run the cycle detector and an
early size computation, and mark the node defined. -/
def Define (fuel : Nat) (w : World) (t u : Nat) : Except Panic World := do
  let tn := w.get t
  if tn.defined then throw .alreadyDefined
  else if tn.named = Option.none then throw .notNamed
  else if tn.complete ≠ Option.none then throw .alreadyComplete
  else
    let w := w.set t { tn with info := Info.ref u }
    let w ← descendType fuel w t
    let w ← computeSize fuel w [] t
    let tn2 := w.get t
    return w.set t { tn2 with defined := true }

mutual

/-- From printable.go / itype.go: `(t *itype).printTo` — the display
string: the realized type's string, else the qualified name, else the
shape's rendering. -/
def itypePrintTo : Nat → World → Nat → String → Except Panic String
  | 0, _, _, _ => .error .outOfFuel
  | fuel + 1, w, t, sep =>
    let tn := w.get t
    match tn.complete with
    | some c => .ok (sep ++ rtString c)
    | Option.none =>
      match tn.named with
      | some q => .ok (sep ++ q.str)
      | Option.none =>
        match tn.info with
        | Info.none => .error .internalError
        | i => (fun s => sep ++ s) <$> infoPrintTo fuel w i
termination_by structural fuel _ _ _ => fuel

/-- From printable.go: the per-shape `printTo` methods. -/
def infoPrintTo : Nat → World → Info → Except Panic String
  | 0, _, _ => .error .outOfFuel
  | fuel + 1, w, Info.ref u => itypePrintTo fuel w u ""
  | fuel + 1, w, Info.arrayI e c =>
    (fun s => "[" ++ toString c ++ "]" ++ s) <$> itypePrintTo fuel w e ""
  | fuel + 1, w, Info.chanI d e =>
    (fun s =>
      (if d = 1 then "<-chan " else if d = 2 then "chan<- " else "chan ") ++ s)
      <$> itypePrintTo fuel w e ""
  | fuel + 1, w, Info.funcI ins outs variadic => do
    let sin ← printTypeList fuel w ins "" variadic
    let sout ← printTypeList fuel w outs "" false
    let sout := if outs.length > 1 then "(" ++ sout ++ ")" else sout
    return "func(" ++ sin ++ ") " ++ sout
  | _ + 1, _, Info.interfaceI _ => .ok "interface\x7b\x7d"
  | fuel + 1, w, Info.mapI k e => do
    let sk ← itypePrintTo fuel w k ""
    let se ← itypePrintTo fuel w e ""
    return "map[" ++ sk ++ "]" ++ se
  | fuel + 1, w, Info.ptrI e =>
    (fun s => "*" ++ s) <$> itypePrintTo fuel w e ""
  | fuel + 1, w, Info.sliceI e =>
    (fun s => "[]" ++ s) <$> itypePrintTo fuel w e ""
  | fuel + 1, w, Info.structI fields => do
    let body ← printFieldList fuel w fields "\x7b "
    if fields.isEmpty then return "struct \x7b\x7d"
    else return "struct " ++ body ++ " \x7d"
  | _ + 1, _, Info.none => .error .internalError
termination_by structural fuel _ _ => fuel

/-- Parameter/result list rendering of the func shape, with the `...`
marker on the last parameter of a variadic signature. -/
def printTypeList : Nat → World → List Nat → String → Bool → Except Panic String
  | _, _, [], _, _ => .ok ""
  | 0, _, _ :: _, _, _ => .error .outOfFuel
  | fuel + 1, w, t :: rest, sep, variadic => do
    let sep := if rest.isEmpty && variadic then sep ++ "..." else sep
    let s ← itypePrintTo fuel w t sep
    let srest ← printTypeList fuel w rest ", " variadic
    return s ++ srest
termination_by structural fuel _ _ _ _ => fuel

/-- Struct field list rendering (`Name Type` pairs separated by `; `). -/
def printFieldList : Nat → World → List SField → String → Except Panic String
  | _, _, [], _ => .ok ""
  | 0, _, _ :: _, _ => .error .outOfFuel
  | fuel + 1, w, f :: rest, sep =>
    match f.Typ with
    | Option.none => .error .internalError
    | some ty => do
      let s ← itypePrintTo fuel w ty ""
      let srest ← printFieldList fuel w rest "; "
      return sep ++ f.Name ++ " " ++ s ++ srest
termination_by structural fuel _ _ _ => fuel

end

/-- From itype.go: `(t *itype).string()`. -/
def itypeString (fuel : Nat) (w : World) (t : Nat) : Except Panic String :=
  itypePrintTo fuel w t ""

/-- From itype.go: `setHashStrFromNamed` — a named node's hash is mixed
from the address of its rtype header (modelled by the node index, the
arena's notion of identity) and its string is the qualified name. -/
def setHashStrFromNamed (w : World) (t : Nat) (q : qname) :
    Except Panic World :=
  let tn := w.get t
  match tn.incomplete with
  | Option.none => .error .internalError
  | some rt =>
    let rt2 := { rt with hash := fnv4 (t / 2 ^ 32 % 2 ^ 32) (t % 2 ^ 32), str := q.str }
    .ok (w.set t { tn with incomplete := some rt2 })

mutual

/-- From type.go lines 961-967: top-level `computeHashStr(t)` —
memoized via `iflagHashStr`. -/
def computeHashStr : Nat → World → Nat → Except Panic World
  | 0, _, _ => .error .outOfFuel
  | fuel + 1, w, t =>
    let tn := w.get t
    if tn.complete.isSome || tn.hashStrKnown then .ok w
    else do
      let w ← itypeComputeHashStr fuel w t t
      let tn2 := w.get t
      return w.set t { tn2 with hashStrKnown := true }
termination_by structural fuel _ _ => fuel

/-- From itype.go lines 189-202: `(u *itype).computeHashStr(t)` — named
nodes take their hash/string from the name, others dispatch on the
shape payload. -/
def itypeComputeHashStr : Nat → World → Nat → Nat → Except Panic World
  | 0, _, _, _ => .error .outOfFuel
  | fuel + 1, w, u, t =>
    let tn := w.get t
    if tn.complete.isSome || tn.hashStrKnown then .ok w
    else
      match tn.named with
      | some q => setHashStrFromNamed w t q
      | Option.none => do
        let w ← infoComputeHashStr fuel w ((w.get u).info) t
        let tn2 := w.get t
        return w.set t { tn2 with hashStrKnown := true }
termination_by structural fuel _ _ _ => fuel

/-- The per-shape `computeHashStr` methods: ptr.go, slice.go (part_016),
chan (part_008) and map (part_009 lines 59-71).  The map arm keeps the
source's `ikey := info.elem.(*itype)` — both the deferred
comparability check and the key rtype passed on to `prepareMapType`
read the map's element, not its key.  Array, struct, func and
interface panic "unimplemented" in this revision. -/
def infoComputeHashStr : Nat → World → Info → Nat → Except Panic World
  | 0, _, _, _ => .error .outOfFuel
  | fuel + 1, w, Info.ref v, t => itypeComputeHashStr fuel w v t
  | fuel + 1, w, Info.ptrI e, t => do
    let w ← computeHashStr fuel w e
    match (w.get e).incomplete with
    | Option.none => .error .internalError
    | some er =>
      let s ← itypeString fuel w t
      let tn := w.get t
      match tn.incomplete with
      | Option.none => .error .internalError
      | some rt =>
        return w.set t
          { tn with incomplete := some { rt with str := s, hash := fnv1 er.hash [42] } }
  | fuel + 1, w, Info.sliceI e, t => do
    let w ← computeHashStr fuel w e
    match (w.get e).incomplete with
    | Option.none => .error .internalError
    | some er =>
      let s ← itypeString fuel w t
      let tn := w.get t
      match tn.incomplete with
      | Option.none => .error .internalError
      | some rt =>
        return w.set t
          { tn with incomplete := some { rt with str := s, hash := fnv1 er.hash [91] } }
  | fuel + 1, w, Info.chanI d e, t => do
    let w ← computeHashStr fuel w e
    match (w.get e).incomplete with
    | Option.none => .error .internalError
    | some er =>
      let s ← itypeString fuel w t
      let tn := w.get t
      match tn.incomplete with
      | Option.none => .error .internalError
      | some rt =>
        return w.set t
          { tn with incomplete := some { rt with str := s, hash := fnv1 er.hash [99, d % 256] } }
  | fuel + 1, w, Info.mapI _key elem, t => do
    let ikey := elem
    let w ← computeHashStr fuel w ikey
    match (w.get ikey).incomplete with
    | Option.none => .error .internalError
    | some krt =>
      if !krt.equal then throw .mapKeyNotComparableComplete
      else do
        let ielem := elem
        let w ← computeHashStr fuel w ielem
        match (w.get ielem).incomplete with
        | Option.none => .error .internalError
        | some ert =>
          let s ← itypeString fuel w t
          let tn := w.get t
          match tn.incomplete with
          | Option.none => .error .internalError
          | some rt =>
            let h := fnv1 ert.hash
              [109, krt.hash / 2 ^ 24 % 256, krt.hash / 2 ^ 16 % 256,
               krt.hash / 2 ^ 8 % 256, krt.hash % 256]
            return w.set t
              { tn with incomplete := some { rt with str := s, hash := h } }
  | _ + 1, _, Info.arrayI _ _, _ => .error .unimplemented
  | _ + 1, _, Info.structI _, _ => .error .unimplemented
  | _ + 1, _, Info.funcI _ _ _, _ => .error .unimplemented
  | _ + 1, _, Info.interfaceI _, _ => .error .unimplemented
  | _ + 1, _, Info.none, _ => .error .internalError
termination_by structural fuel _ _ _ => fuel

end

/-- From complete.go lines 54-86: per-shape `completeType` — every kind
is a no-op stub except the pointer kind, which installs a fresh rtype
header carrying the display string and records a deferred finish
closure on the node (`t.finish`); the closure itself is not run by
`Complete` in this revision. -/
def infoCompleteType : Nat → World → Info → Nat → Except Panic World
  | fuel, w, Info.ptrI _e, t => do
    let s ← itypeString fuel w t
    let tn := w.get t
    return w.set t
      { tn with
        incomplete := some { ptrProto with str := s }
        finish := true }
  | _, w, Info.arrayI _ _, _ => .ok w
  | _, w, Info.chanI _ _, _ => .ok w
  | _, w, Info.interfaceI _, _ => .ok w
  | _, w, Info.mapI _ _, _ => .ok w
  | _, w, Info.funcI _ _ _, _ => .ok w
  | _, w, Info.sliceI _, _ => .ok w
  | _, w, Info.structI _, _ => .ok w
  | _, _, Info.none, _ => .error .internalError
  | _, _, Info.ref _, _ => .error .internalError

/-- From complete.go lines 45-52: `(u *itype).completeType(t)` —
forward through `ref` payloads, then the per-shape finalizers. -/
def itypeCompleteType : Nat → World → Nat → Nat → Except Panic World
  | 0, _, _, _ => .error .outOfFuel
  | fuel + 1, w, u, t =>
    if (w.get t).complete.isSome then .ok w
    else
      match (w.get u).info with
      | Info.ref v => itypeCompleteType fuel w v t
      | i => infoCompleteType fuel w i t
termination_by structural fuel _ _ _ => fuel

/-- The phase-2 scan of `Complete`: index of the first root whose size
is still unknown. -/
def firstUnsized (w : World) : List Nat → Nat → Option Nat
  | [], _ => Option.none
  | t :: rest, i =>
    if !(w.get t).sizeKnown then some i else firstUnsized w rest (i + 1)

/-- From complete.go lines 20-43: `Complete(in, method)` — reject a
non-nil method callback, resolve sizes of all roots, panic with the
index of the first root that still lacks a size, run the finalizer pass,
and `return nil`: the returned list is `Option.none` regardless of
success, exactly as the source returns the nil slice. -/
def Complete (fuel : Nat) (w : World) (ins : List Nat)
    (method : Option Unit) : Except Panic (World × Option (List Nat)) := do
  if method.isSome then throw .methodNotNil
  else
    let w ← ins.foldlM (fun w t => computeSize fuel w [] t) w
    match firstUnsized w ins 0 with
    | some i => throw (.missingSize i)
    | Option.none => do
      let w ← ins.foldlM (fun w t => itypeCompleteType fuel w t t) w
      return (w, Option.none)

/-! ## Scenario worlds used by the concrete theorems -/

/-- A world holding one named placeholder `T` (node 0), as created by
`NamedOf`. -/
def namedTWorld : World :=
  ((NamedOf { } "T" "").toOption.getD ({ }, 0)).1

/-- `namedTWorld` extended by `PtrTo` on `T`: node 1 is `*T`. -/
def ptrTWorld : World := (PtrTo namedTWorld 0).1

/-- `namedTWorld` extended by `SliceOf` on `T`: node 1 is `[]T`. -/
def sliceTWorld : World := (SliceOf namedTWorld 0).1

/-! ## C1 -/

/-- C1: the claim states that `Define(T, u)` panics with "invalid Type
loop" when `u`'s chain of named-node links leads back to `T`, and that
`Define(T, PtrTo(T))` always succeeds.  The cited `descendType`
(type.go lines 258-277) compares the tortoise and hare pointers without
the non-nil guard of the later revision (func.go line 254), so the two
pointers also meet at nil after walking off the end of a finite chain:
`Define(T, PtrTo(T))` panics with exactly the "invalid Type loop" error
the claim reserves for genuine cycles, contradicting the claim, the
spec's P2, `Define`'s own doc comment, and the repository's
`TestNamedOf`, which expects `Define` on a terminating chain to
succeed.  This theorem evaluates the model at the failing input. -/
theorem define_ptr_to_self_panics :
    (do
      let (w1, t) ← NamedOf { } "T" ""
      let (w2, p) := PtrTo w1 t
      Define 100 w2 t p : Except Panic World)
      = .error .invalidTypeLoop := by
  rfl

/-! ## C6 -/

/-- C6: the claim states that a successful `Complete` returns the list
of finished type objects, one per root, in root order.  The cited
revision of `Complete` (complete.go lines 20-43) ends with `return nil`
unconditionally: on the batch `[*T]` (whose size resolves), the phases
run — the pointer node even gets its deferred `finish` closure
installed — yet the returned list is the nil slice, contradicting the
claim, `Complete`'s own doc comment ("The list out contains the fully
usable resulting types") and the repository's `TestCompleteNamedOf`,
which indexes into the returned list.  This theorem evaluates the model
at the failing input: the returned list is `none` although the
completion pipeline succeeded. -/
theorem complete_returns_nil_on_success :
    (Complete 100 ptrTWorld [1] Option.none).map (fun r => r.2) =
      .ok Option.none ∧
    (Complete 100 ptrTWorld [1] Option.none).map (fun r => (r.1.get 1).finish) =
      .ok true := by
  constructor <;> rfl

/-! ## C7 -/

/-- Deferred-check scenario: `K` (node 0) is a named type whose resolved
rtype header has no equality function — a non-comparable key — while
`E` (node 1) is comparable; node 2 is the map node `map[K]E` as `MapOf`
builds it when the key's comparability is still unknown.  The world is
written out directly (it is the state `Define` would produce for `K`
and `E`; the constructor route is blocked by the `descendType` defect
shown for C1). -/
def mapKeyBadWorld : World :=
  { nodes :=
      [{ named := some { name := "K", str := "K" }, sizeKnown := true
         hashStrKnown := true
         incomplete := some { size := 24, align := 8, fieldAlign := 8, knd := kSlice, hash := 7, equal := false } },
       { named := some { name := "E", str := "E" }, sizeKnown := true
         hashStrKnown := true
         incomplete := some { size := 8, align := 8, fieldAlign := 8, knd := kInt, hash := 9, equal := true } },
       { comparable := tfalse, sizeKnown := true, incomplete := some mapProto
         info := Info.mapI 0 1 }] }

/-- The same scenario with the equality functions swapped: comparable
key, non-comparable element. -/
def mapElemBadWorld : World :=
  { nodes :=
      [{ named := some { name := "K", str := "K" }, sizeKnown := true
         hashStrKnown := true
         incomplete := some { size := 8, align := 8, fieldAlign := 8, knd := kInt, hash := 7, equal := true } },
       { named := some { name := "E", str := "E" }, sizeKnown := true
         hashStrKnown := true
         incomplete := some { size := 24, align := 8, fieldAlign := 8, knd := kSlice, hash := 9, equal := false } },
       { comparable := tfalse, sizeKnown := true, incomplete := some mapProto
         info := Info.mapI 0 1 }] }

/-- C7: the claim's first half holds: `MapOf` panics immediately when
the key is already known non-comparable (here a slice key).  The second
half fails in the code: the deferred re-check does not run during size
resolution (`iMapType.computeSize` returns immediately; the check sits
in the hash/string phase), and part_009 line 60 reads
`ikey := info.elem.(*itype)` — the element, not the key — so on a map
whose key resolved non-comparable but whose element is comparable the
deferred check passes and completion does not fail, contradicting the
claim and the panic message "invalid map key type" in the code itself;
symmetrically, a comparable key with a non-comparable element fails
spuriously.  This theorem evaluates the model at those inputs. -/
theorem map_key_deferred_check_wrong :
    MapOf sliceTWorld 1 0 = .error .mapKeyNotComparable ∧
    (computeHashStr 10 mapKeyBadWorld 2).isOk = true ∧
    ((mapKeyBadWorld.get 0).incomplete.map (·.equal)) = some false ∧
    computeHashStr 10 mapElemBadWorld 2 = .error .mapKeyNotComparableComplete := by
  refine ⟨by rfl, by rfl, by rfl, by rfl⟩

/-! ## C4 -/

/-- C4 counterexample: the claim asserts reference-equal results for
every anonymous composite kind constructed twice from identical
children.  `ChanOf` (chan.go lines 20-36) allocates a fresh node on
every call — no cache lookup, although the `lookupCache` comment in
itype.go lists `ChanOf` among the cached constructors and the later
revision in part_008 does canonicalize — so two `ChanOf` calls with
the same incomplete element yield distinct nodes. -/
theorem chanOf_twice_distinct :
    (ChanOf namedTWorld 3 0).2 ≠ (ChanOf (ChanOf namedTWorld 3 0).1 3 0).2 := by
  decide

/-! ## C10 -/

/-- Fields for the `StructOf` truncation scenario: field 0 has the
incomplete type `T` (node 0), fields 1..128 are distinct complete-free
filler names; 129 fields in total. -/
def manyFieldsA : List SField :=
  { Name := "F", Typ := some 0 } ::
    (List.range 128).map (fun n => { Name := "F" ++ toString n, Typ := some 0 })

/-- The same 129 fields with a different final (index 128) field. -/
def manyFieldsB : List SField :=
  manyFieldsA.take 128 ++ [{ Name := "Zdiff", Typ := some 0 }]

set_option maxRecDepth 4000 in
/-- C10 counterexample: the claim asserts that two `StructOf` calls with
129 fields agreeing on the first 128 collide in the cache and the
second returns the first's node.  In fact the first call never caches:
on the incomplete path with a cache miss, `StructOf` slices the
128-element key array `ckey.fields[0:len(fields)]` with `len = 129`,
which is out of bounds — a runtime panic before the node is built or
stored — and the second call panics identically. -/
theorem structOf_129_fields_panics :
    StructOf namedTWorld manyFieldsA = .error .sliceBounds ∧
    StructOf namedTWorld manyFieldsB = .error .sliceBounds := by
  constructor <;> rfl

end ReflectIncomplete






namespace ReflectIncomplete

/-! ## C3 -/

/-- Offset alignment: `doAlign` rounds to a multiple of a power of two
(this is the padding step of the struct packing loop). -/
theorem two_pow_dvd_doAlign (x k : Nat) (h : k ≤ 64) :
    2 ^ k ∣ doAlign x (2 ^ k) := by
  have h1 : (1 : Nat) ≤ 2 ^ k := Nat.one_le_two_pow
  have h2 : (2 : Nat) ^ k ≤ 2 ^ 64 := Nat.pow_le_pow_right (by omega) h
  have hm : wrap (2 ^ k + (W64 - 1)) = 2 ^ k - 1 := by
    unfold wrap W64
    have h3 : 2 ^ k + (2 ^ 64 - 1) = 2 ^ 64 + (2 ^ k - 1) := by omega
    rw [h3, Nat.add_mod_left, Nat.mod_eq_of_lt (by omega)]
  have hnot : notW (2 ^ k - 1) = W64 - 2 ^ k := by
    unfold notW W64
    rw [Nat.mod_eq_of_lt (by omega)]
    omega
  rw [doAlign, hm, hnot]
  apply Nat.dvd_of_mod_eq_zero
  rw [← Nat.and_pow_two_sub_one_eq_mod, Nat.and_assoc,
    Nat.and_pow_two_sub_one_eq_mod]
  have hdvd : 2 ^ k ∣ (W64 - 2 ^ k) :=
    Nat.dvd_sub' (pow_dvd_pow 2 h) dvd_rfl
  rw [Nat.mod_eq_zero_of_dvd hdvd, Nat.and_zero]

end ReflectIncomplete
namespace ReflectIncomplete

/-- Struct-packing scenario: node 0 has (size 1, align 1), node 1 has
(size 4, align 4), node 2 is a struct shape over both, in declaration
order. -/
def oneFourWorld : World :=
  { nodes :=
      [{ sizeKnown := true, incomplete := some { size := 1, align := 1, fieldAlign := 1, knd := kInt } },
       { sizeKnown := true, incomplete := some { size := 4, align := 4, fieldAlign := 4, knd := kInt } },
       { incomplete := some structProto
         info := Info.structI [{ Name := "A", Typ := some 0 }, { Name := "B", Typ := some 1 }] }] }

/-- C3: size resolution of a struct packs fields in declaration order
(the `structAccStep` fold of `computeSize`), padding each field's
offset `doAlign size falign` to a multiple of the field's alignment
(first conjunct, for the power-of-two alignments the packing rule
assumes); in particular fields (1,1) then (4,4) resolve to total size
8 — the one-byte field at offset 0, the four-byte field padded to
offset 4 — both on the pure fold and through `computeSize` on a
struct node, which also reports alignment 4, not the unpadded 5. -/
theorem struct_packing_aligned :
    (∀ x k, k ≤ 64 → 2 ^ k ∣ doAlign x (2 ^ k)) ∧
    (structAccStep (structAccStep { } true 1 1) true 4 4).size = 8 ∧
    (computeSize 10 oneFourWorld [] 2).map
      (fun w => ((w.get 2).size, (w.get 2).align)) = .ok (8, 4) := by
  refine ⟨two_pow_dvd_doAlign, by rfl, by rfl⟩

/-- C3 witness: the packing theorem applied at offset 5 and alignment
`2^2 = 4`, together with its concrete conjuncts. -/
theorem struct_packing_aligned_witness :
    (2 ^ 2 ∣ doAlign 5 (2 ^ 2)) ∧
    (structAccStep (structAccStep { } true 1 1) true 4 4).size = 8 :=
  ⟨struct_packing_aligned.1 5 2 (by omega), struct_packing_aligned.2.1⟩

/-! ## C9 -/

/-- C9: `Of` is cached: the first call installs the wrapping node in
`ofMap` (second conjunct) and calling `Of` again with the same
`reflect.Type` returns exactly the cached node and leaves the world
unchanged (first conjunct, stated as: re-running `Of` on the world the
first call produced is the identity on both world and result). -/
theorem lookupOf_insert_self (w : World) (rt : RType) (i : Nat) :
    (w.insertOf rt i).lookupOf rt = some i := by
  unfold World.lookupOf World.insertOf
  simp [List.find?]

theorem of_idempotent_cached (w : World) (rt : RType) :
    Of (Of w rt).1 rt = Of w rt ∧
    (Of w rt).1.lookupOf rt = some (Of w rt).2 := by
  unfold Of of
  cases h : w.lookupOf rt with
  | some t =>
    simp only [h]
    constructor <;> trivial
  | none =>
    simp only [h, lookupOf_insert_self]
    exact ⟨trivial, trivial⟩

end ReflectIncomplete
namespace ReflectIncomplete

/-! ## C2 -/

/-- The completion handles and finish markers of all nodes: the
observation the atomicity claim is about. -/
def completes (w : World) : List (Option RType × Bool) :=
  w.nodes.map (fun n => (n.complete, n.finish))

theorem map_complete_set (l : List INode) (t : Nat) (n : INode)
    (h : (n.complete, n.finish) = ((l.getD t default).complete, (l.getD t default).finish)) :
    (l.set t n).map (fun n => (n.complete, n.finish)) =
      l.map (fun n => (n.complete, n.finish)) := by
  induction l generalizing t with
  | nil => rfl
  | cons hd tl ih =>
    cases t with
    | zero => simp_all [List.getD]
    | succ t => simp_all [List.getD]

theorem completes_set (w : World) (t : Nat) (n : INode)
    (h : (n.complete, n.finish) = ((w.get t).complete, (w.get t).finish)) :
    completes (w.set t n) = completes w :=
  map_complete_set w.nodes t n h

theorem completes_storeSize (w : World) (t : Nat) (r : SizeRes) :
    completes (storeSize w t r) = completes w := by
  unfold storeSize
  split
  · exact completes_set _ _ _ rfl
  · rfl

end ReflectIncomplete
namespace ReflectIncomplete

/-- Rewriting lemmas for the `Except` monad's bind. -/
theorem exceptBind_ok {ε α β : Type} (a : α) (f : α → Except ε β) :
    (Except.ok a >>= f) = f a := rfl

theorem exceptBind_err {ε α β : Type} (e : ε) (f : α → Except ε β) :
    ((Except.error e : Except ε α) >>= f) = Except.error e := rfl

/-- Size resolution never touches a node's completion handle: phases 1
and 2 of `Complete` cannot finalize anything. -/
theorem computeSize_completes (fuel : Nat) :
    (∀ w work t w', computeSize fuel w work t = .ok w' →
      completes w' = completes w) ∧
    (∀ w work fs acc w' acc',
      computeStructFields fuel w work fs acc = .ok (w', acc') →
      completes w' = completes w) := by
  induction fuel with
  | zero =>
    constructor
    · intro w work t w' h
      simp [computeSize] at h
    · intro w work fs acc w' acc' h
      cases fs with
      | nil =>
        simp [computeStructFields] at h
        simp [h.1]
      | cons f rest => simp [computeStructFields] at h
  | succ fuel ih =>
    constructor
    · intro w work t w' h
      rw [computeSize] at h
      split at h
      · cases h; rfl
      · split at h
        · exact absurd h (by simp)
        · split at h
          · -- kInvalid
            split at h
            · -- ref u
              rename_i u _
              simp only at h
              cases hu : computeSize fuel w (t :: work) u with
              | error e =>
                rw [hu, exceptBind_err] at h
                exact absurd h (by simp)
              | ok w1 =>
                rw [hu] at h
                simp only [exceptBind_ok] at h
                split at h
                · cases h
                  rw [completes_storeSize]
                  exact ih.1 _ _ _ _ hu
                · cases h
                  exact ih.1 _ _ _ _ hu
            · cases h; rfl
          · split at h
            · -- kArray
              split at h
              · rename_i elem count _
                simp only at h
                cases hu : computeSize fuel w (t :: work) elem with
                | error e =>
                  rw [hu, exceptBind_err] at h
                  exact absurd h (by simp)
                | ok w1 =>
                  rw [hu] at h
                  simp only [exceptBind_ok] at h
                  split at h
                  · split at h
                    · exact absurd h (by simp)
                    · cases h
                      rw [completes_storeSize]
                      exact ih.1 _ _ _ _ hu
                  · cases h
                    exact ih.1 _ _ _ _ hu
              · exact absurd h (by simp)
            · split at h
              · -- kStruct
                split at h
                · rename_i fields _
                  simp only at h
                  cases hu : computeStructFields fuel w (t :: work) fields { } with
                  | error e =>
                    rw [hu, exceptBind_err] at h
                    exact absurd h (by simp)
                  | ok p =>
                    rw [hu] at h
                    simp only [exceptBind_ok] at h
                    cases h
                    rw [completes_storeSize]
                    exact ih.2 _ _ _ _ _ _ (by rw [hu])
                · exact absurd h (by simp)
              · exact absurd h (by simp)
    · intro w work fs acc w' acc' h
      cases fs with
      | nil =>
        rw [computeStructFields] at h
        cases h; rfl
      | cons f rest =>
        rw [computeStructFields] at h
        split at h
        · exact absurd h (by simp)
        · rename_i ty hty
          cases hu : computeSize fuel w work ty with
          | error e =>
            rw [hu, exceptBind_err] at h
            exact absurd h (by simp)
          | ok w1 =>
            rw [hu] at h
            simp only [exceptBind_ok] at h
            have h2 := ih.2 _ _ _ _ _ _ h
            rw [h2]
            exact ih.1 _ _ _ _ hu

end ReflectIncomplete
namespace ReflectIncomplete

/-- The phase-1 fold over the roots also preserves completion handles. -/
theorem foldl_computeSize_completes (fuel : Nat) :
    ∀ (roots : List Nat) (w w1 : World),
      roots.foldlM (fun w t => computeSize fuel w [] t) w = .ok w1 →
      completes w1 = completes w := by
  intro roots
  induction roots with
  | nil =>
    intro w w1 h
    cases h
    rfl
  | cons r rest ih =>
    intro w w1 h
    rw [List.foldlM_cons] at h
    cases hu : computeSize fuel w [] r with
    | error e => rw [hu, exceptBind_err] at h; exact absurd h (by simp)
    | ok wm =>
      rw [hu] at h
      simp only [exceptBind_ok] at h
      rw [ih _ _ h]
      exact (computeSize_completes fuel).1 _ _ _ _ hu

/-- `firstUnsized` returns the index of a root whose size is unknown. -/
theorem firstUnsized_mem (w : World) :
    ∀ (l : List Nat) (k i : Nat), firstUnsized w l k = some i →
      k ≤ i ∧ ∃ t, l.get? (i - k) = some t ∧ (w.get t).sizeKnown = false := by
  intro l
  induction l with
  | nil => intro k i h; simp [firstUnsized] at h
  | cons r rest ih =>
    intro k i h
    rw [firstUnsized] at h
    split at h
    · cases h
      refine ⟨Nat.le_refl _, r, ?_, by simp_all⟩
      simp
    · obtain ⟨hk, t, hget, hsz⟩ := ih (k + 1) i h
      refine ⟨by omega, t, ?_, hsz⟩
      have : i - k = (i - (k + 1)) + 1 := by omega
      rw [this]
      simpa using hget

/-- C2: when, after the size-resolution pass, some root still lacks a
size, `Complete` fails with the panic naming the first such root's
index `i` (which indeed indexes a root whose size is unknown), and the
batch is rejected atomically: the size pass never touches any node's
completion handle, so no type in the batch — nor anywhere else in the
world — is finalized. -/
theorem complete_missing_size_atomic (fuel : Nat) (w w1 : World)
    (roots : List Nat) (i : Nat)
    (h1 : roots.foldlM (fun w t => computeSize fuel w [] t) w = .ok w1)
    (h2 : firstUnsized w1 roots 0 = some i) :
    Complete fuel w roots Option.none = .error (.missingSize i) ∧
    completes w1 = completes w ∧
    ∃ t, roots.get? i = some t ∧ (w1.get t).sizeKnown = false := by
  refine ⟨?_, foldl_computeSize_completes fuel roots w w1 h1, ?_⟩
  · rw [Complete]
    simp only [Option.isSome_none, Bool.false_eq_true, if_false]
    rw [h1]
    simp only [exceptBind_ok]
    rw [h2]
    rfl
  · obtain ⟨-, t, hget, hsz⟩ := firstUnsized_mem w1 roots 0 i h2
    exact ⟨t, by simpa using hget, hsz⟩

/-- The spec's P5 scenario: named placeholder `T` (node 0, never
bound), roots `*T` (node 1), `[]T` (node 2) and `struct «F T»`
(node 3); the third root depends on the unbound placeholder. -/
def p5SliceWorld : World := (SliceOf ptrTWorld 0).1

def p5World : World :=
  ((StructOf p5SliceWorld [{ Name := "F", Typ := some 0 }]).toOption.getD
    (p5SliceWorld, 0)).1

/-- The world after the size-resolution pass over the three roots. -/
def p5Folded : World :=
  (([1, 2, 3] : List Nat).foldlM
    (fun w t => computeSize 100 w [] t) p5World).toOption.getD { }

/-- C2 witness: the atomicity theorem applied to the P5 scenario — the
third root (index 2) is reported, and no completion handle changed. -/
theorem complete_missing_size_atomic_witness :
    Complete 100 p5World [1, 2, 3] Option.none = .error (.missingSize 2) ∧
    completes p5Folded = completes p5World :=
  ⟨(complete_missing_size_atomic 100 p5World p5Folded [1, 2, 3] 2
      (by rfl) (by rfl)).1,
   (complete_missing_size_atomic 100 p5World p5Folded [1, 2, 3] 2
      (by rfl) (by rfl)).2.1⟩

end ReflectIncomplete
namespace ReflectIncomplete

theorem getD_set_self (l : List INode) (t : Nat) (n d : INode)
    (h : t < l.length) : (l.set t n).getD t d = n := by
  induction l generalizing t with
  | nil => simp at h
  | cons hd tl ih =>
    cases t with
    | zero => rfl
    | succ t => exact ih t (by simpa using h)

theorem World.get_set_self (w : World) (t : Nat) (n : INode)
    (h : t < w.nodes.length) : (w.set t n).get t = n :=
  getD_set_self w.nodes t n default h

/-! ## C8 -/

/-- C8: resolving the size of an array node whose element resolved to a
positive size `e`: when `count` stays within the address space
(`count ≤ maxUintptr / e`), resolution succeeds and the node's size
becomes exactly `count * e` — no wraparound — with the element's
alignment; when `count` exceeds `maxUintptr / e`, resolution panics
with the fatal overflow error instead of wrapping. -/
theorem array_computeSize_overflow_guard (fuel : Nat) (w we : World)
    (work : List Nat) (t elem count e : Nat)
    (hsk : (w.get t).sizeKnown = false)
    (hwork : t ∉ work)
    (hkind : (w.get t).kind = kArray)
    (hinfo : (w.get t).info = Info.arrayI elem count)
    (hchild : computeSize fuel w (t :: work) elem = .ok we)
    (helem : (we.get elem).sizeKnown = true)
    (he : (we.get elem).size = e)
    (hepos : 0 < e)
    (hsame : we.get t = w.get t)
    (hcomp : (w.get t).complete = Option.none)
    (ht : t < we.nodes.length) :
    (count ≤ (W64 - 1) / e →
      computeSize (fuel + 1) w work t = .ok (storeSize we t
        { align := (we.get elem).align, fieldAlign := (we.get elem).fieldAlign
          size := wrap (count * e), ok := true }) ∧
      ∀ w', computeSize (fuel + 1) w work t = .ok w' →
        (w'.get t).sizeKnown = true ∧ (w'.get t).size = count * e ∧
        (w'.get t).align = (we.get elem).align) ∧
    ((W64 - 1) / e < count →
      computeSize (fuel + 1) w work t = .error .arrayOverflow) := by
  have hmain : computeSize (fuel + 1) w work t =
      (if 0 < e ∧ (W64 - 1) / e < count then .error .arrayOverflow
       else .ok (storeSize we t
        { align := (we.get elem).align, fieldAlign := (we.get elem).fieldAlign
          size := wrap (count * e), ok := true })) := by
    rw [computeSize]
    simp only [hsk, hwork, hkind, hinfo, hchild, exceptBind_ok, helem, he,
      if_false, if_true, Bool.false_eq_true, not_false_iff]
    have h17 : kArray ≠ kInvalid := by decide
    simp only [h17, if_false, reduceIte]
    split
    · rename_i hg
      simp only [Bool.and_eq_true, decide_eq_true_eq, gt_iff_lt] at hg
      rw [if_pos hg]
      rfl
    · rename_i hg
      simp only [Bool.and_eq_true, decide_eq_true_eq, gt_iff_lt, not_and] at hg
      rw [if_neg (fun hc => hg hc.1 hc.2)]
      rfl
  have hread : ((storeSize we t
      { align := (we.get elem).align, fieldAlign := (we.get elem).fieldAlign
        size := wrap (count * e), ok := true }).get t) =
      { we.get t with
        incomplete := some { ((we.get t).incomplete.getD { }) with
          size := wrap (count * e), align := (we.get elem).align
          fieldAlign := (we.get elem).fieldAlign }
        sizeKnown := true } := by
    unfold storeSize
    simp only [if_true]
    exact World.get_set_self we t _ ht
  constructor
  · intro hle
    have hnot : ¬(0 < e ∧ (W64 - 1) / e < count) := by omega
    constructor
    · rw [hmain, if_neg hnot]
    · intro w' hw'
      rw [hmain, if_neg hnot] at hw'
      cases hw'
      have hcnt : count * e ≤ W64 - 1 := (Nat.le_div_iff_mul_le hepos).mp hle
      have hwrap : wrap (count * e) = count * e := by
        unfold wrap W64
        exact Nat.mod_eq_of_lt (by unfold W64 at hcnt; omega)
      rw [hread]
      refine ⟨rfl, ?_, ?_⟩
      · unfold INode.size
        simp [hsame, hcomp, hwrap]
      · unfold INode.align
        simp [hsame, hcomp]
  · intro hgt
    rw [hmain, if_pos ⟨hepos, hgt⟩]

end ReflectIncomplete
namespace ReflectIncomplete

/-- Array scenario: node 2 is `struct «G *T»` (one pointer field, so it
resolves to size 8, align 8), node 3 an array over it. -/
def arrElemWorld : World :=
  ((StructOf ptrTWorld [{ Name := "G", Typ := some 1 }]).toOption.getD
    (ptrTWorld, 0)).1

def arrOkWorld : World :=
  ((ArrayOf arrElemWorld 3 2).toOption.getD (arrElemWorld, 0)).1

def arrOvWorld : World :=
  ((ArrayOf arrElemWorld (2 ^ 62) 2).toOption.getD (arrElemWorld, 0)).1

/-- The world after resolving the array's element (node 2). -/
def arrOkFolded : World :=
  (computeSize 99 arrOkWorld [3] 2).toOption.getD { }

def arrOvFolded : World :=
  (computeSize 99 arrOvWorld [3] 2).toOption.getD { }

/-- C8 witness: the array-size theorem applied to `[3]struct«G *T»`
(element size 8: resolution succeeds, `3 * 8` with alignment 8) and to
a `2^62`-element array of the same element, which overflows the address
space and panics. -/
theorem array_computeSize_overflow_guard_witness :
    computeSize 100 arrOkWorld [] 3 = .ok (storeSize arrOkFolded 3
      { align := (arrOkFolded.get 2).align
        fieldAlign := (arrOkFolded.get 2).fieldAlign
        size := wrap (3 * 8), ok := true }) ∧
    computeSize 100 arrOvWorld [] 3 = .error .arrayOverflow :=
  ⟨((array_computeSize_overflow_guard 99 arrOkWorld arrOkFolded [] 3 2 3 8
      (by rfl) (by simp) (by rfl) (by rfl) (by rfl) (by rfl) (by rfl)
      (by decide) (by rfl) (by rfl) (by decide)).1 (by decide)).1,
   (array_computeSize_overflow_guard 99 arrOvWorld arrOvFolded [] 3 2 (2 ^ 62) 8
      (by rfl) (by simp) (by rfl) (by rfl) (by rfl) (by rfl) (by rfl)
      (by decide) (by rfl) (by rfl) (by decide)).2 (by decide)⟩

end ReflectIncomplete
namespace ReflectIncomplete

/-- Appending a node with no completion handle cannot make any index
complete. -/
theorem get_alloc_complete (w : World) (n : INode)
    (hn : n.complete = Option.none) (i : Nat)
    (hi : (w.get i).complete = Option.none) :
    (((w.alloc n).1).get i).complete = Option.none := by
  unfold World.alloc World.get at *
  rcases Nat.lt_or_ge i w.nodes.length with h | h
  · rw [List.getD_append _ _ _ _ h]
    exact hi
  · rcases Nat.eq_or_lt_of_le h with h2 | h2
    · rw [List.getD_append_right _ _ _ _ h]
      subst h2
      simpa using hn
    · rw [List.getD_eq_default]
      · rfl
      · simpa using h2

theorem lookupCK_insert_self (w : World) (k : cacheKey) (i : Nat) :
    (w.insertCK k i).lookupCK k = some i := by
  unfold World.lookupCK World.insertCK
  simp [List.find?]

theorem get_insertCK (w : World) (k : cacheKey) (i j : Nat) :
    (w.insertCK k i).get j = w.get j := rfl

/-- C4 amended: `PtrTo` (like `SliceOf`, `ArrayOf` and `StructOf`)
canonicalizes through `lookupCache`, so constructing `*X` twice from
the same incomplete element returns the identical node and leaves the
world unchanged; `ChanOf` in this revision performs no cache lookup or
store — despite the `lookupCache` comment listing it and despite the
later revision (part_008) canonicalizing — so two `ChanOf` calls with
the same incomplete element allocate two distinct nodes. -/
theorem ptrTo_canonicalizes_chanOf_not (w : World) (elem dir : Nat)
    (h1 : (w.get elem).complete = Option.none) :
    PtrTo (PtrTo w elem).1 elem = PtrTo w elem ∧
    (ChanOf (ChanOf w dir elem).1 dir elem).2 ≠ (ChanOf w dir elem).2 := by
  constructor
  · unfold PtrTo canonicalize
    cases hck : w.lookupCK ⟨kPtr, some elem, Option.none, 0⟩ with
    | some r =>
      simp only [h1, hck]
    | none =>
      have halloc : ((w.alloc
          { comparable := ttrue, sizeKnown := true
            incomplete := some ptrProto, info := Info.ptrI elem }).1).lookupCK
          ⟨kPtr, some elem, Option.none, 0⟩ = Option.none := by
        unfold World.alloc World.lookupCK at *
        exact hck
      have hcomp2 : (((w.alloc
          { comparable := ttrue, sizeKnown := true
            incomplete := some ptrProto, info := Info.ptrI elem }).1).get elem).complete
          = Option.none := get_alloc_complete w _ rfl elem h1
      simp only [h1, hck, halloc, hcomp2, get_insertCK, lookupCK_insert_self]
  · unfold ChanOf
    simp only [h1]
    have h2 : (((w.alloc
        { comparable := ttrue, sizeKnown := true
          incomplete := some chanProto, info := Info.chanI dir elem }).1).get elem).complete
        = Option.none := get_alloc_complete w _ rfl elem h1
    simp only [h2]
    unfold World.alloc
    simp

end ReflectIncomplete
namespace ReflectIncomplete

/-- C4 witness: the canonicalization theorem applied to the incomplete
named element `T` of `namedTWorld` with channel direction 3. -/
theorem ptrTo_canonicalizes_chanOf_not_witness :
    PtrTo (PtrTo namedTWorld 0).1 0 = PtrTo namedTWorld 0 ∧
    (ChanOf (ChanOf namedTWorld 3 0).1 3 0).2 ≠ (ChanOf namedTWorld 3 0).2 :=
  ptrTo_canonicalizes_chanOf_not namedTWorld 0 3 (by rfl)

end ReflectIncomplete
namespace ReflectIncomplete

/-! ## C5 -/

/-- C5 counterexample: the claim says a pointer whose element's
comparability is false is itself not marked comparable-true; but
`PtrTo` over the never-comparable `[]T` node yields a node marked
`ttrue`. -/
theorem ptr_over_noncomparable_is_ttrue :
    (sliceTWorld.get 1).comparable = tfalse ∧
    ((PtrTo sliceTWorld 1).1.get (PtrTo sliceTWorld 1).2).comparable = ttrue := by
  constructor <;> rfl

theorem get_alloc_self (w : World) (n : INode) :
    ((w.alloc n).1).get (w.alloc n).2 = n := by
  unfold World.alloc World.get
  rw [List.getD_append_right _ _ _ _ (Nat.le_refl _)]
  simp

theorem lookupCK_of_empty (w : World) (k : cacheKey)
    (h : w.lookupCache = []) : w.lookupCK k = Option.none := by
  unfold World.lookupCK
  rw [h]
  rfl

/-- C5 amended: `andTribool` is conjunction with unknown absorbing, and
the constructors assign comparability as the code does: slices,
functions and maps are never comparable; an array inherits its
element's comparability; but pointers, channels and interfaces are
marked comparable (`ttrue`) unconditionally — regardless of the
element's comparability, since Go pointers and channels are always
comparable — and a struct's comparability is the `andTribool` fold of
only the fields before its first incomplete field (here: a struct whose
first field is incomplete is marked `ttrue` no matter its fields).
Each constructor clause assumes the element is incomplete (otherwise
the call short-circuits to the external realizer) and, where the
constructor consults a cache, that the cache is empty. -/
theorem constructor_comparability (w : World) (e k dir c : Nat)
    (emb : List Nat) (nm : String) (rest : List SField)
    (hc : (w.get e).complete = Option.none)
    (hck : w.lookupCache = [])
    (hkc : (w.get k).comparable ≠ tfalse)
    (hkinc : (w.get k).complete = Option.none)
    (hnm1 : nm ≠ "") (hnm2 : isValidFieldName nm = true)
    (hsk : w.structLookupCache = [])
    (hlen : rest.length + 1 ≤ 128) :
    (∀ a b, (andTribool a b = ttrue ↔ (a = ttrue ∧ b = ttrue)) ∧
      (andTribool a b = tunknown ↔ (a = tunknown ∨ b = tunknown))) ∧
    ((SliceOf w e).1.get (SliceOf w e).2).comparable = tfalse ∧
    (FuncOf w [e] [] false).map (fun r => (r.1.get r.2).comparable) = .ok tfalse ∧
    (MapOf w k e).map (fun r => (r.1.get r.2).comparable) = .ok tfalse ∧
    (ArrayOf w (Int.ofNat c) e).map (fun r => (r.1.get r.2).comparable) =
      .ok ((w.get e).comparable) ∧
    ((PtrTo w e).1.get (PtrTo w e).2).comparable = ttrue ∧
    ((ChanOf w dir e).1.get (ChanOf w dir e).2).comparable = ttrue ∧
    ((InterfaceOf w emb).1.get (InterfaceOf w emb).2).comparable = ttrue ∧
    (StructOf w ({ Name := nm, Typ := some e } :: rest)).map
      (fun r => (r.1.get r.2).comparable) = .ok ttrue := by
  refine ⟨fun a b => ⟨by cases a <;> cases b <;> decide,
    by cases a <;> cases b <;> decide⟩, ?_, ?_, ?_, ?_, ?_, ?_, ?_, ?_⟩
  · -- SliceOf
    unfold SliceOf canonicalize
    simp only [hc, lookupCK_of_empty w _ hck]
    have h2 : ((w.alloc
        { comparable := tfalse, sizeKnown := true
          incomplete := some sliceProto, info := Info.sliceI e }).1).lookupCK
        ⟨kSlice, some e, Option.none, 0⟩ = Option.none :=
      lookupCK_of_empty _ _ hck
    simp only [h2, get_insertCK, get_alloc_self]
  · -- FuncOf
    unfold FuncOf
    have hnc : allTypesAreComplete w [e] = false := by
      unfold allTypesAreComplete
      simp [hc]
    simp only [hnc, Bool.false_and, Bool.and_false, if_false]
    simp only [Except.map, Bool.false_eq_true, if_false, get_alloc_self]
  · -- MapOf
    unfold MapOf
    simp only [hkinc]
    rw [if_neg (by simpa using hkc)]
    simp only [Except.map, get_alloc_self]
  · -- ArrayOf
    unfold ArrayOf canonicalize
    rw [if_neg (by simp)]
    simp only [hc, lookupCK_of_empty w _ hck]
    have h2 : ((w.alloc
        { comparable := (w.get e).comparable, sizeKnown := (w.get e).sizeKnown
          incomplete := some arrayProto
          info := Info.arrayI e (Int.ofNat c).toNat }).1).lookupCK
        ⟨kArray, some e, Option.none, (Int.ofNat c).toNat⟩ = Option.none :=
      lookupCK_of_empty _ _ hck
    simp only [h2, get_insertCK, Except.map, get_alloc_self]
  · -- PtrTo
    unfold PtrTo canonicalize
    simp only [hc, lookupCK_of_empty w _ hck]
    have h2 : ((w.alloc
        { comparable := ttrue, sizeKnown := true
          incomplete := some ptrProto, info := Info.ptrI e }).1).lookupCK
        ⟨kPtr, some e, Option.none, 0⟩ = Option.none :=
      lookupCK_of_empty _ _ hck
    simp only [h2, get_insertCK, get_alloc_self]
  · -- ChanOf
    unfold ChanOf
    simp only [hc]
    rw [get_alloc_self]
  · -- InterfaceOf
    unfold InterfaceOf
    rw [get_alloc_self]
  · -- StructOf
    unfold StructOf
    rw [structOfLoop]
    rw [if_neg (by simpa using hnm1), if_neg (by simp [hnm2])]
    simp only [if_pos hc, exceptBind_ok]
    have hload : w.lookupSK
        { fields := structKeyFields
            ({ Name := nm, Typ := some e } :: rest : List SField)
          fieldCount := ({ Name := nm, Typ := some e } :: rest : List SField).length }
        = Option.none := by
      unfold World.lookupSK
      rw [hsk]
      rfl
    have hload2 : ∀ n : INode, ((w.alloc n).1).lookupSK
        { fields := structKeyFields
            ({ Name := nm, Typ := some e } :: rest : List SField)
          fieldCount := ({ Name := nm, Typ := some e } :: rest : List SField).length }
        = Option.none := by
      intro n
      unfold World.lookupSK World.alloc
      rw [hsk]
      rfl
    simp only [Bool.false_eq_true, if_false, hload, hload2]
    rw [if_neg (by simp only [List.length_cons, gt_iff_lt, not_lt, maxStructFields]; omega)]
    have hgetSK : ∀ (w2 : World) k i j, ((w2.insertSK k i).get j) = w2.get j :=
      fun _ _ _ _ => rfl
    simp only [Except.map, pure, Except.pure, hgetSK, get_alloc_self]

end ReflectIncomplete
namespace ReflectIncomplete

/-- C5 witness: the comparability theorem applied to `namedTWorld`
(fresh caches, incomplete named node 0): slice over it is `tfalse`,
pointer over it is `ttrue`, and a struct whose first field has the
incomplete type is `ttrue`. -/
theorem constructor_comparability_witness :
    ((SliceOf namedTWorld 0).1.get (SliceOf namedTWorld 0).2).comparable = tfalse ∧
    ((PtrTo namedTWorld 0).1.get (PtrTo namedTWorld 0).2).comparable = ttrue ∧
    (StructOf namedTWorld [{ Name := "F", Typ := some 0 }]).map
      (fun r => (r.1.get r.2).comparable) = .ok ttrue :=
  ⟨(constructor_comparability namedTWorld 0 0 3 5 [] "F" []
      (by rfl) (by rfl) (by decide) (by rfl) (by decide) (by decide) (by rfl)
      (by decide)).2.1,
   (constructor_comparability namedTWorld 0 0 3 5 [] "F" []
      (by rfl) (by rfl) (by decide) (by rfl) (by decide) (by decide) (by rfl)
      (by decide)).2.2.2.2.2.1,
   (constructor_comparability namedTWorld 0 0 3 5 [] "F" []
      (by rfl) (by rfl) (by decide) (by rfl) (by decide) (by decide) (by rfl)
      (by decide)).2.2.2.2.2.2.2.2⟩

end ReflectIncomplete
namespace ReflectIncomplete

theorem lookupSK_insert_self (w : World) (k : structCacheKey) (i : Nat) :
    (w.insertSK k i).lookupSK k = some i := by
  unfold World.lookupSK World.insertSK
  simp [List.find?]

theorem lookupSK_alloc (w : World) (n : INode) (k : structCacheKey) :
    ((w.alloc n).1).lookupSK k = w.lookupSK k := rfl

/-- C10 amended: `StructOf`'s cache key is the field count plus the
first `maxStructFields = 128` fields, but the claimed truncated-key
collision cannot be observed: (1) a call with more than 128 fields that
reaches the incomplete path with a cache miss panics out of bounds
before building or caching a node; (2) repeating a `StructOf` call with
the same field list (on the incomplete path) returns the node the first
call produced, with the world unchanged; (3) for lists of at most 128
fields the truncated key determines the entire field list, so distinct
field lists of equal length never collide. -/
theorem structOf_key_truncation :
    (∀ (w : World) (fields : List SField) (cmp : tribool) (pkg : String),
      structOfLoop w fields 0 ttrue "" = .ok (cmp, pkg, false) →
      w.lookupSK { fields := structKeyFields fields, fieldCount := fields.length }
        = Option.none →
      fields.length > 128 →
      StructOf w fields = .error .sliceBounds) ∧
    (∀ (w w1 : World) (t : Nat) (fields : List SField) (cmp : tribool) (pkg : String),
      StructOf w fields = .ok (w1, t) →
      structOfLoop w fields 0 ttrue "" = .ok (cmp, pkg, false) →
      structOfLoop w1 fields 0 ttrue "" = .ok (cmp, pkg, false) →
      StructOf w1 fields = .ok (w1, t)) ∧
    (∀ f1 f2 : List SField, f1.length = f2.length → f1.length ≤ 128 →
      f1.take 128 = f2.take 128 → f1 = f2) := by
  refine ⟨?_, ?_, ?_⟩
  · intro w fields cmp pkg hloop hck hlen
    unfold StructOf
    rw [hloop]
    simp only [exceptBind_ok, Bool.false_eq_true, if_false, hck]
    rw [if_pos (by simpa [maxStructFields] using hlen)]
    rfl
  · intro w w1 t fields cmp pkg h1 hloop1 hloop2
    unfold StructOf at h1 ⊢
    rw [hloop1] at h1
    rw [hloop2]
    simp only [exceptBind_ok, Bool.false_eq_true, if_false] at h1 ⊢
    cases hck : w.lookupSK { fields := structKeyFields fields, fieldCount := fields.length } with
    | some r =>
      rw [hck] at h1
      cases h1
      rw [hck]
      rfl
    | none =>
      rw [hck] at h1
      by_cases hl : fields.length > maxStructFields
      · rw [if_pos hl] at h1
        exact absurd h1 (by simp [throw, throwThe, MonadExceptOf.throw])
      · rw [if_neg hl, lookupSK_alloc, hck] at h1
        cases h1
        rw [lookupSK_insert_self]
        rfl
  · intro f1 f2 hlen h128 htake
    have h1 : f1.take 128 = f1 := List.take_of_length_le h128
    have h2 : f2.take 128 = f2 := List.take_of_length_le (by omega)
    rw [← h1, htake, h2]

end ReflectIncomplete
namespace ReflectIncomplete

/-- World after one incomplete-path `StructOf` call: node 1 is
`struct «F T»`, cached under its key. -/
def oneFieldWorld : World :=
  ((StructOf namedTWorld [{ Name := "F", Typ := some 0 }]).toOption.getD
    (namedTWorld, 0)).1

set_option maxRecDepth 4000 in
/-- C10 witness: the truncation theorem applied to the 129-field list
(panic), to a repeated one-field call (cache hit returns the same
node), and to two equal two-field lists. -/
theorem structOf_key_truncation_witness :
    StructOf namedTWorld manyFieldsA = .error .sliceBounds ∧
    StructOf oneFieldWorld [{ Name := "F", Typ := some 0 }] =
      .ok (oneFieldWorld, 1) ∧
    ([{ Name := "A" }, { Name := "B" }] : List SField) =
      [{ Name := "A" }, { Name := "B" }] :=
  ⟨structOf_key_truncation.1 namedTWorld manyFieldsA ttrue ""
      (by rfl) (by rfl) (by decide),
   structOf_key_truncation.2.1 namedTWorld oneFieldWorld 1
      [{ Name := "F", Typ := some 0 }] ttrue "" (by rfl) (by rfl) (by rfl),
   structOf_key_truncation.2.2 [{ Name := "A" }, { Name := "B" }]
      [{ Name := "A" }, { Name := "B" }] (by rfl) (by decide) (by rfl)⟩

end ReflectIncomplete
